import Mathlib

/-!
Verification of the TaskFlow CRUD service (src/backend/app).

The data model and the five task handlers of `routes.py` are embedded as
pure Lean functions.  The SQLite table (`models.py`: columns `id` text
primary key, `title` text not null, `due_date` date nullable, `status`
text) is modelled as a list of task rows; `db.query(...).filter(id ==
task_id).first()` becomes a first-match lookup, an in-place ORM mutation
followed by `commit` becomes a keyed replacement, `db.delete` becomes a
keyed removal.  Pydantic request validation (the `TaskCreate` /
`TaskUpdate` schemas) is embedded as it is declared in the source:
`TaskCreate.title` carries `min_length=1, max_length=200`, while the
fields of `TaskUpdate` carry no constraints at all.  Randomly generated
identifiers (`str(uuid4())`) are modelled by passing the generated id as
an explicit argument.
-/

set_option autoImplicit false

namespace TaskFlow

/-- Calendar date (year, month, day), no timezone component, as carried by
the `due_date` column. -/
structure CalDate where
  year : Nat
  month : Nat
  day : Nat
deriving DecidableEq, Repr

/-- A stored task row, after `models.py`: columns `id`, `title`,
`due_date`, `status`. -/
structure Task where
  id : String
  title : String
  due_date : Option CalDate
  status : String
deriving DecidableEq, Repr

/-- Request body of `POST /tasks`, after the pydantic schema `TaskCreate`
in `routes.py`. -/
structure TaskCreate where
  title : String
  due_date : Option CalDate
deriving DecidableEq, Repr

/-- Pydantic validation attached to `TaskCreate.title` in `routes.py`:
`Field(..., min_length=1, max_length=200)`.  `due_date` carries no
constraint beyond being a well-formed date. -/
def validTaskCreate (payload : TaskCreate) : Bool :=
  1 ≤ payload.title.length && payload.title.length ≤ 200

/-- Request body of `PUT /tasks/{id}`, after the pydantic schema
`TaskUpdate` in `routes.py`: every field is `Optional` with default
`None`, and — exactly as in the source — no length constraint is declared
on `title`.  A field that is omitted or sent as JSON `null` both parse to
`None`, hence both are `none` here. -/
structure TaskUpdate where
  title : Option String
  due_date : Option CalDate
  status : Option String
deriving DecidableEq, Repr

/-- The error taxonomy of the service, section 7 of the spec. -/
inductive ApiError
  | notFound
  | invalidInput
  | constraintError
deriving DecidableEq, Repr

/-- The task table: a list of rows.  The primary-key constraint of the
real table is expressed by the predicate `UniqueIds` below. -/
abbrev Store := List Task

/-- The primary-key constraint of the `task` table: ids are pairwise
distinct. -/
def UniqueIds (db : Store) : Prop := (db.map Task.id).Nodup

/-- Embedding of `db.query(TaskModel).filter(TaskModel.id == task_id).first()`:
the first row whose id matches, if any. -/
def findTask : Store → String → Option Task
  | [], _ => none
  | t :: rest, task_id => if t.id == task_id then some t else findTask rest task_id

/-- Embedding of an ORM in-place mutation plus `db.commit()`: the row keyed
by `task_id` is replaced by `task`. -/
def saveTask (db : Store) (task_id : String) (task : Task) : Store :=
  db.map (fun t => if t.id == task_id then task else t)

/-- Handler of `POST /tasks` (`create_task` in `routes.py`).  Pydantic
rejects the body before the handler runs when the title violates its
constraints; `newId` stands for the value of `str(uuid4())`; the
primary-key constraint makes the commit fail if the generated id already
exists (spec: `ConstraintError`, practically unreachable). -/
def create_task (db : Store) (newId : String) (payload : TaskCreate) :
    (Except ApiError Task) × Store :=
  if validTaskCreate payload then
    if (findTask db newId).isSome then
      (.error .constraintError, db)
    else
      let task : Task := ⟨newId, payload.title, payload.due_date, "pending"⟩
      (.ok task, db ++ [task])
  else
    (.error .invalidInput, db)

/-- Handler of `GET /tasks` (`list_tasks` in `routes.py`): all rows. -/
def list_tasks (db : Store) : List Task := db

/-- Handler of `GET /tasks/{id}` (`get_task` in `routes.py`): the matching
row, or HTTP 404.  It performs no write. -/
def get_task (db : Store) (task_id : String) : Except ApiError Task :=
  match findTask db task_id with
  | none => .error .notFound
  | some task => .ok task

/-- The field-by-field conditional assignment inside `update_task`:
each of the three `if payload.x is not None: task.x = payload.x`
statements, in source order. -/
def applyTaskUpdate (task : Task) (payload : TaskUpdate) : Task :=
  let task1 := match payload.title with
    | some s => { task with title := s }
    | none => task
  let task2 := match payload.due_date with
    | some d => { task1 with due_date := some d }
    | none => task1
  match payload.status with
  | some s => { task2 with status := s }
  | none => task2

/-- Handler of `PUT /tasks/{id}` (`update_task` in `routes.py`): fetch,
404 if absent, assign each supplied field, commit. -/
def update_task (db : Store) (task_id : String) (payload : TaskUpdate) :
    (Except ApiError Task) × Store :=
  match findTask db task_id with
  | none => (.error .notFound, db)
  | some task =>
    let task := applyTaskUpdate task payload
    (.ok task, saveTask db task_id task)

/-- Handler of `POST /tasks/{id}/complete` (`complete_task` in
`routes.py`): fetch, 404 if absent, set `status = "completed"`, commit. -/
def complete_task (db : Store) (task_id : String) :
    (Except ApiError Task) × Store :=
  match findTask db task_id with
  | none => (.error .notFound, db)
  | some task =>
    let task := { task with status := "completed" }
    (.ok task, saveTask db task_id task)

/-- Response body of a successful `DELETE /tasks/{id}`. -/
structure DeleteResponse where
  deleted : Bool
  id : String
deriving DecidableEq, Repr

/-- Handler of `DELETE /tasks/{id}` (`delete_task` in `routes.py`): fetch,
404 if absent, remove the row, return `{"deleted": True, "id": task_id}`. -/
def delete_task (db : Store) (task_id : String) :
    (Except ApiError DeleteResponse) × Store :=
  match findTask db task_id with
  | none => (.error .notFound, db)
  | some _ =>
    (.ok ⟨true, task_id⟩, db.filter (fun t => !(t.id == task_id)))

/-- If the lookup finds a row, that row is in the table and its id is the
requested one. -/
theorem findTask_some {db : Store} {task_id : String} {t : Task}
    (h : findTask db task_id = some t) : t ∈ db ∧ t.id = task_id := by
  induction db with
  | nil => simp [findTask] at h
  | cons u rest ih =>
    by_cases hb : u.id = task_id
    · simp [findTask, hb] at h
      subst h
      exact ⟨List.mem_cons_self u rest, hb⟩
    · simp [findTask, hb] at h
      rcases ih h with ⟨hmem, hid⟩
      exact ⟨List.mem_cons_of_mem u hmem, hid⟩

/-- The lookup fails exactly when no row has the requested id. -/
theorem findTask_eq_none {db : Store} {task_id : String} :
    findTask db task_id = none ↔ ∀ u ∈ db, u.id ≠ task_id := by
  induction db with
  | nil => simp [findTask]
  | cons u rest ih =>
    by_cases hb : u.id = task_id
    · simp [findTask, hb]
    · simp [findTask, hb, ih]

/-- After a keyed replacement, looking the key up returns the stored row
(the replacement keeps the row position, so it stays the first match). -/
theorem findTask_saveTask {db : Store} {task_id : String} {t t' : Task}
    (h : findTask db task_id = some t) (h' : t'.id = task_id) :
    findTask (saveTask db task_id t') task_id = some t' := by
  induction db with
  | nil => simp [findTask] at h
  | cons u rest ih =>
    by_cases hb : u.id = task_id
    · simp [findTask, saveTask, hb, h']
    · simp [findTask, hb] at h
      simp [findTask, saveTask, hb]
      simpa [saveTask] using ih h

/-- A row of a keyed replacement that carries the key is the stored row. -/
theorem mem_saveTask {db : Store} {task_id : String} {t u : Task}
    (hu : u ∈ saveTask db task_id t) (hid : u.id = task_id) : u = t := by
  rcases List.mem_map.mp hu with ⟨v, _, hv⟩
  by_cases hb : v.id = task_id
  · simpa [hb] using hv.symm
  · rw [if_neg (by simpa using hb)] at hv
    exact absurd (hv ▸ hid) hb

/-- A keyed replacement that stores what every key-carrying row already is
leaves the table unchanged. -/
theorem saveTask_eq_self {db : Store} {task_id : String} {t : Task}
    (h : ∀ u ∈ db, u.id = task_id → u = t) : saveTask db task_id t = db := by
  induction db with
  | nil => rfl
  | cons u rest ih =>
    have hrest : saveTask rest task_id t = rest :=
      ih fun v hv => h v (List.mem_cons_of_mem u hv)
    by_cases hb : u.id = task_id
    · have : u = t := h u (List.mem_cons_self u rest) hb
      simpa [saveTask, hb, this] using congrArg (u :: ·) hrest
    · simpa [saveTask, hb] using congrArg (u :: ·) hrest

/-- Under the primary-key constraint, every row carrying the id of a found
row is that row. -/
theorem uniqueIds_eq_found {db : Store} {task_id : String} {t : Task}
    (hu : UniqueIds db) (h : findTask db task_id = some t) :
    ∀ u ∈ db, u.id = task_id → u = t := by
  intro u hmem hid
  rcases findTask_some h with ⟨hmemt, hidt⟩
  exact List.inj_on_of_nodup_map hu hmem hmemt (by rw [hid, hidt])

/-- When the lookup on the prefix fails, looking up an appended table
continues in the suffix. -/
theorem findTask_append_of_none {db : Store} {task_id : String} (l : Store)
    (h : findTask db task_id = none) :
    findTask (db ++ l) task_id = findTask l task_id := by
  induction db with
  | nil => simp
  | cons u rest ih =>
    by_cases hb : u.id = task_id
    · simp [findTask, hb] at h
    · simp [findTask, hb] at h ⊢
      exact ih h

/-- C1: the claimed invariant fails on the code.  `TaskUpdate` declares no
length constraint on `title`, and `update_task` assigns any non-`None`
title verbatim, so updating an existing task with an empty title leaves
the store holding a task whose title is the empty string. -/
theorem C1_empty_title_reachable :
    ∃ t ∈ (update_task [⟨"t1", "Buy milk", none, "pending"⟩] "t1"
        ⟨some "", none, none⟩).2, t.title = "" :=
  ⟨⟨"t1", "", none, "pending"⟩, by decide⟩

/-- C2: the claim fails on the code.  An update of an existing task whose
payload carries the empty string as title is not rejected with
`InvalidInput`: `update_task` returns the task with the empty title and
writes it to the store. -/
theorem C2_empty_title_update_accepted :
    update_task [⟨"t1", "Buy milk", none, "pending"⟩] "t1"
        ⟨some "", none, none⟩ =
      (.ok ⟨"t1", "", none, "pending"⟩, [⟨"t1", "", none, "pending"⟩]) := by
  rfl

/-- C3: updating an existing task with a payload that supplies only
`due_date` returns and stores the task with the new due date, and its
title and status equal their prior values (partial-update law). -/
theorem C3_update_only_due_date (db : Store) (task_id : String) (t : Task)
    (d : CalDate) (h : findTask db task_id = some t) :
    (update_task db task_id ⟨none, some d, none⟩).1 =
      .ok { t with due_date := some d } ∧
    findTask (update_task db task_id ⟨none, some d, none⟩).2 task_id =
      some { t with due_date := some d } ∧
    Task.title { t with due_date := some d } = t.title ∧
    Task.status { t with due_date := some d } = t.status := by
  have hid : Task.id { t with due_date := some d } = task_id := (findTask_some h).2
  have happ : applyTaskUpdate t ⟨none, some d, none⟩ = { t with due_date := some d } := rfl
  refine ⟨?_, ?_, rfl, rfl⟩
  · simp [update_task, h, happ]
  · have h2 : (update_task db task_id ⟨none, some d, none⟩).2 =
        saveTask db task_id { t with due_date := some d } := by
      simp [update_task, h, happ]
    rw [h2]
    exact findTask_saveTask h hid

/-- C3 witness: a concrete run of the partial-update law. -/
theorem C3_witness :
    findTask [⟨"a", "Write spec", none, "pending"⟩] "a" =
      some ⟨"a", "Write spec", none, "pending"⟩ ∧
    ((update_task [⟨"a", "Write spec", none, "pending"⟩] "a"
        ⟨none, some ⟨2026, 10, 12⟩, none⟩).1 =
      .ok ⟨"a", "Write spec", some ⟨2026, 10, 12⟩, "pending"⟩ ∧
    findTask (update_task [⟨"a", "Write spec", none, "pending"⟩] "a"
        ⟨none, some ⟨2026, 10, 12⟩, none⟩).2 "a" =
      some ⟨"a", "Write spec", some ⟨2026, 10, 12⟩, "pending"⟩ ∧
    Task.title ⟨"a", "Write spec", some ⟨2026, 10, 12⟩, "pending"⟩ = "Write spec" ∧
    Task.status ⟨"a", "Write spec", some ⟨2026, 10, 12⟩, "pending"⟩ = "pending") :=
  ⟨rfl, C3_update_only_due_date [⟨"a", "Write spec", none, "pending"⟩] "a"
    ⟨"a", "Write spec", none, "pending"⟩ ⟨2026, 10, 12⟩ rfl⟩

/-- C4: every operation addressed to an id that is absent from the store
returns `notFound`, and the store component it returns is exactly the
input store (`get_task` performs no write by construction). -/
theorem C4_missing_id_not_found (db : Store) (task_id : String)
    (payload : TaskUpdate) (h : findTask db task_id = none) :
    get_task db task_id = .error .notFound ∧
    update_task db task_id payload = (.error .notFound, db) ∧
    complete_task db task_id = (.error .notFound, db) ∧
    delete_task db task_id = (.error .notFound, db) := by
  refine ⟨?_, ?_, ?_, ?_⟩ <;>
    simp [get_task, update_task, complete_task, delete_task, h]

/-- C4 witness: a concrete absent id. -/
theorem C4_witness :
    findTask [⟨"a", "Write spec", none, "pending"⟩] "b" = none ∧
    (get_task [⟨"a", "Write spec", none, "pending"⟩] "b" = .error .notFound ∧
    update_task [⟨"a", "Write spec", none, "pending"⟩] "b" ⟨some "X", none, none⟩ =
      (.error .notFound, [⟨"a", "Write spec", none, "pending"⟩]) ∧
    complete_task [⟨"a", "Write spec", none, "pending"⟩] "b" =
      (.error .notFound, [⟨"a", "Write spec", none, "pending"⟩]) ∧
    delete_task [⟨"a", "Write spec", none, "pending"⟩] "b" =
      (.error .notFound, [⟨"a", "Write spec", none, "pending"⟩])) :=
  ⟨rfl, C4_missing_id_not_found [⟨"a", "Write spec", none, "pending"⟩] "b"
    ⟨some "X", none, none⟩ rfl⟩

/-- C5: creating a task with a valid title and a generated id not already
present succeeds with a task whose id is the generated one — distinct from
the id of every task already in the store — and whose status is
"pending". -/
theorem C5_create_fresh_pending (db : Store) (newId : String)
    (payload : TaskCreate) (hv : validTaskCreate payload = true)
    (hf : findTask db newId = none) :
    ∃ t : Task, (create_task db newId payload).1 = .ok t ∧
      t.id = newId ∧ t.status = "pending" ∧ ∀ u ∈ db, u.id ≠ t.id := by
  refine ⟨⟨newId, payload.title, payload.due_date, "pending"⟩, ?_, rfl, rfl, ?_⟩
  · simp [create_task, hv, hf]
  · intro u hu
    exact findTask_eq_none.mp hf u hu

/-- C5 witness: a concrete creation on a store already holding one task. -/
theorem C5_witness :
    validTaskCreate ⟨"Buy milk", none⟩ = true ∧
    findTask [⟨"a", "Write spec", none, "pending"⟩] "b" = none ∧
    (∃ t : Task,
      (create_task [⟨"a", "Write spec", none, "pending"⟩] "b"
        ⟨"Buy milk", none⟩).1 = .ok t ∧
      t.id = "b" ∧ t.status = "pending" ∧
      ∀ u ∈ ([⟨"a", "Write spec", none, "pending"⟩] : Store), u.id ≠ t.id) :=
  ⟨rfl, rfl, C5_create_fresh_pending [⟨"a", "Write spec", none, "pending"⟩] "b"
    ⟨"Buy milk", none⟩ rfl rfl⟩

/-- C6: with no intervening operation, `get_task` on the id of a freshly
created task returns exactly the record that `create_task` returned. -/
theorem C6_get_after_create (db : Store) (newId : String)
    (payload : TaskCreate) (hv : validTaskCreate payload = true)
    (hf : findTask db newId = none) :
    ∃ t : Task, (create_task db newId payload).1 = .ok t ∧
      get_task (create_task db newId payload).2 newId = .ok t := by
  refine ⟨⟨newId, payload.title, payload.due_date, "pending"⟩, ?_, ?_⟩
  · simp [create_task, hv, hf]
  · have h2 : (create_task db newId payload).2 =
        db ++ [⟨newId, payload.title, payload.due_date, "pending"⟩] := by
      simp [create_task, hv, hf]
    have h3 : findTask (create_task db newId payload).2 newId =
        some ⟨newId, payload.title, payload.due_date, "pending"⟩ := by
      rw [h2, findTask_append_of_none _ hf]
      simp [findTask]
    simp [get_task, h3]

/-- C6 witness: a concrete create-then-get run. -/
theorem C6_witness :
    validTaskCreate ⟨"Buy milk", none⟩ = true ∧
    findTask [⟨"a", "Write spec", none, "pending"⟩] "b" = none ∧
    (∃ t : Task,
      (create_task [⟨"a", "Write spec", none, "pending"⟩] "b"
        ⟨"Buy milk", none⟩).1 = .ok t ∧
      get_task (create_task [⟨"a", "Write spec", none, "pending"⟩] "b"
        ⟨"Buy milk", none⟩).2 "b" = .ok t) :=
  ⟨rfl, rfl, C6_get_after_create [⟨"a", "Write spec", none, "pending"⟩] "b"
    ⟨"Buy milk", none⟩ rfl rfl⟩

/-- C7: completing an existing task, whatever its current status, returns
it with status "completed"; completing it again returns the same record
and leaves the store exactly as after the first call. -/
theorem C7_complete_idempotent (db : Store) (task_id : String) (t : Task)
    (h : findTask db task_id = some t) :
    ∃ t' : Task, (complete_task db task_id).1 = .ok t' ∧
      t'.status = "completed" ∧
      complete_task (complete_task db task_id).2 task_id =
        (.ok t', (complete_task db task_id).2) := by
  have hid : Task.id { t with status := "completed" } = task_id := (findTask_some h).2
  refine ⟨{ t with status := "completed" }, by simp [complete_task, h], rfl, ?_⟩
  have h2 : (complete_task db task_id).2 =
      saveTask db task_id { t with status := "completed" } := by
    simp [complete_task, h]
  have h3 : findTask (complete_task db task_id).2 task_id =
      some { t with status := "completed" } := by
    rw [h2]
    exact findTask_saveTask h hid
  have h5 : saveTask (complete_task db task_id).2 task_id
      { t with status := "completed" } = (complete_task db task_id).2 := by
    apply saveTask_eq_self
    intro u hu hid'
    rw [h2] at hu
    exact mem_saveTask hu hid'
  set db' := (complete_task db task_id).2 with hdb'
  simp [complete_task, h3, h5]

/-- C7 witness: completing a task that carries a free-text status, twice. -/
theorem C7_witness :
    findTask [⟨"a", "Write spec", none, "archived"⟩] "a" =
      some ⟨"a", "Write spec", none, "archived"⟩ ∧
    (∃ t' : Task,
      (complete_task [⟨"a", "Write spec", none, "archived"⟩] "a").1 = .ok t' ∧
      t'.status = "completed" ∧
      complete_task (complete_task [⟨"a", "Write spec", none, "archived"⟩] "a").2
          "a" =
        (.ok t', (complete_task [⟨"a", "Write spec", none, "archived"⟩] "a").2)) :=
  ⟨rfl, C7_complete_idempotent [⟨"a", "Write spec", none, "archived"⟩] "a"
    ⟨"a", "Write spec", none, "archived"⟩ rfl⟩

/-- C8: deleting an existing task returns `{deleted: true, id}`, a
subsequent get on the same id returns `notFound`, and no row of the
resulting store carries that id (hard removal). -/
theorem C8_delete_then_get (db : Store) (task_id : String) (t : Task)
    (h : findTask db task_id = some t) :
    (delete_task db task_id).1 = .ok ⟨true, task_id⟩ ∧
    get_task (delete_task db task_id).2 task_id = .error .notFound ∧
    ∀ u ∈ (delete_task db task_id).2, u.id ≠ task_id := by
  have h2 : (delete_task db task_id).2 =
      db.filter (fun u => !(u.id == task_id)) := by
    simp [delete_task, h]
  have habs : ∀ u ∈ (delete_task db task_id).2, u.id ≠ task_id := by
    intro u hu
    rw [h2] at hu
    simpa using (List.mem_filter.mp hu).2
  refine ⟨by simp [delete_task, h], ?_, habs⟩
  have h3 : findTask (delete_task db task_id).2 task_id = none :=
    findTask_eq_none.mpr habs
  simp [get_task, h3]

/-- C8 witness: a concrete delete-then-get run on a two-task store. -/
theorem C8_witness :
    findTask [⟨"a", "Write spec", none, "pending"⟩,
        ⟨"b", "Buy milk", none, "pending"⟩] "b" =
      some ⟨"b", "Buy milk", none, "pending"⟩ ∧
    ((delete_task [⟨"a", "Write spec", none, "pending"⟩,
        ⟨"b", "Buy milk", none, "pending"⟩] "b").1 = .ok ⟨true, "b"⟩ ∧
    get_task (delete_task [⟨"a", "Write spec", none, "pending"⟩,
        ⟨"b", "Buy milk", none, "pending"⟩] "b").2 "b" = .error .notFound ∧
    ∀ u ∈ (delete_task [⟨"a", "Write spec", none, "pending"⟩,
        ⟨"b", "Buy milk", none, "pending"⟩] "b").2, u.id ≠ "b") :=
  ⟨rfl, C8_delete_then_get [⟨"a", "Write spec", none, "pending"⟩,
    ⟨"b", "Buy milk", none, "pending"⟩] "b"
    ⟨"b", "Buy milk", none, "pending"⟩ rfl⟩

/-- The due date stored by the field-by-field assignment: the payload's
date when one is supplied, the prior date otherwise. -/
theorem applyTaskUpdate_due_date (t : Task) (payload : TaskUpdate) :
    (applyTaskUpdate t payload).due_date =
      match payload.due_date with
      | some d => some d
      | none => t.due_date := by
  rcases payload with ⟨pt, pd, ps⟩
  cases pt <;> cases pd <;> cases ps <;> rfl

/-- C9: an update can never clear a set due date.  Omitted and `null`
due dates both parse to `none` (pydantic `Optional` default), so for a
task whose due date is set, after any update whatsoever the stored due
date is still set: it is the prior value or the payload's new date. -/
theorem C9_due_date_not_clearable (db : Store) (task_id : String) (t : Task)
    (payload : TaskUpdate) (h : findTask db task_id = some t)
    (hd : t.due_date.isSome = true) :
    ∃ t' : Task, (update_task db task_id payload).1 = .ok t' ∧
      t'.due_date.isSome = true ∧
      (t'.due_date = t.due_date ∨ t'.due_date = payload.due_date) := by
  refine ⟨applyTaskUpdate t payload, by simp [update_task, h], ?_, ?_⟩
  · rw [applyTaskUpdate_due_date]
    cases hp : payload.due_date with
    | none => simpa using hd
    | some d => simp
  · rw [applyTaskUpdate_due_date]
    cases hp : payload.due_date with
    | none => left; rfl
    | some d => right; rfl

/-- C9 witness: an update supplying no due date leaves a set due date
set. -/
theorem C9_witness :
    findTask [⟨"a", "Write spec", some ⟨2026, 10, 12⟩, "pending"⟩] "a" =
      some ⟨"a", "Write spec", some ⟨2026, 10, 12⟩, "pending"⟩ ∧
    Option.isSome (Task.due_date ⟨"a", "Write spec", some ⟨2026, 10, 12⟩,
      "pending"⟩) = true ∧
    (∃ t' : Task,
      (update_task [⟨"a", "Write spec", some ⟨2026, 10, 12⟩, "pending"⟩] "a"
        ⟨some "New title", none, none⟩).1 = .ok t' ∧
      t'.due_date.isSome = true ∧
      (t'.due_date = Task.due_date ⟨"a", "Write spec", some ⟨2026, 10, 12⟩,
          "pending"⟩ ∨
        t'.due_date = TaskUpdate.due_date ⟨some "New title", none, none⟩)) :=
  ⟨rfl, rfl, C9_due_date_not_clearable
    [⟨"a", "Write spec", some ⟨2026, 10, 12⟩, "pending"⟩] "a"
    ⟨"a", "Write spec", some ⟨2026, 10, 12⟩, "pending"⟩
    ⟨some "New title", none, none⟩ rfl rfl⟩

/-- C10: on a store whose ids satisfy the primary-key constraint, an
update of an existing task whose payload supplies no field at all
succeeds, returns the task unchanged, and leaves the store unchanged. -/
theorem C10_empty_update_noop (db : Store) (task_id : String) (t : Task)
    (hu : UniqueIds db) (h : findTask db task_id = some t) :
    update_task db task_id ⟨none, none, none⟩ = (.ok t, db) := by
  have happ : applyTaskUpdate t ⟨none, none, none⟩ = t := rfl
  have hsave : saveTask db task_id t = db :=
    saveTask_eq_self (uniqueIds_eq_found hu h)
  simp [update_task, h, happ, hsave]

/-- C10 witness: a concrete all-fields-omitted update. -/
theorem C10_witness :
    UniqueIds [⟨"a", "Write spec", none, "pending"⟩,
      ⟨"b", "Buy milk", none, "pending"⟩] ∧
    findTask [⟨"a", "Write spec", none, "pending"⟩,
        ⟨"b", "Buy milk", none, "pending"⟩] "b" =
      some ⟨"b", "Buy milk", none, "pending"⟩ ∧
    update_task [⟨"a", "Write spec", none, "pending"⟩,
        ⟨"b", "Buy milk", none, "pending"⟩] "b" ⟨none, none, none⟩ =
      (.ok ⟨"b", "Buy milk", none, "pending"⟩,
        [⟨"a", "Write spec", none, "pending"⟩,
          ⟨"b", "Buy milk", none, "pending"⟩]) :=
  ⟨by simp [UniqueIds], rfl, C10_empty_update_noop
    [⟨"a", "Write spec", none, "pending"⟩, ⟨"b", "Buy milk", none, "pending"⟩]
    "b" ⟨"b", "Buy milk", none, "pending"⟩ (by simp [UniqueIds]) rfl⟩

end TaskFlow
